import Mathlib

/-! # Message-queue publishers of the netmaker server (`mq/publishers.go`)

A shallow embedding of the publisher functions of `mq/publishers.go` and the
properties of their fan-out, error handling and scheduling.

Modelling conventions.

* A Go `error` is a value of `Err`; a nil error is `none : Option Err`.
* The collaborators of other packages (`logic`, `servercfg`, `serverctl`,
  `encoding/json`, the MQTT client and the package-level `publish` helper) are
  the fields of an environment `Env`: the functions of this file are modelled
  for every behaviour of those collaborators.
* Every call of a collaborator with an effect is recorded, in program order,
  in the trace of the computation (`Eff.trace`); the value a Go function
  returns is `Eff.val`.
-/

namespace Netmaker.MQ

/-! ## Data model -/

/-- A Go `error`, identified with its message. -/
abbrev Err := String

/-- A serialized payload (`[]byte`). -/
abbrev Bytes := String

/-- Modelled from the spec: the declaration of `models.Node` is outside
`mq/publishers.go`. A node has an identity (`ID`, read through `ID.String()`),
a network membership (`Network`), a pending action (`Action`) and access-key
material (`NetworkSettings.AccessKeys`, named by lines 120-122); `Rest` stands
for all remaining fields. -/
structure Node where
  ID : String
  Network : String
  Action : String
  AccessKeys : List String
  Rest : String
deriving DecidableEq, Repr

/-- Modelled from the spec: the declaration of `models.Host` is outside
`mq/publishers.go`. The one field read here says whether proxy mode is enabled. -/
structure Host where
  ProxyEnabled : Bool
deriving DecidableEq, Repr

/-- Modelled from the spec: the declaration of `manager.ProxyManagerPayload` is
outside `mq/publishers.go`. Proxy instructions with an action tag (`Action`);
`Rest` stands for all remaining fields. -/
structure ProxyManagerPayload where
  Action : String
  Rest : String
deriving DecidableEq, Repr

/-- Modelled from the spec: the declaration of `models.PeerUpdate` is outside
`mq/publishers.go`. A snapshot of the peer set of a node, embedding a proxy
payload (`ProxyUpdate`); `Rest` stands for all remaining fields. -/
structure PeerUpdate where
  ProxyUpdate : ProxyManagerPayload
  Rest : String
deriving DecidableEq, Repr

/-- Modelled from the spec: the declaration of `models.Network` is outside
`mq/publishers.go`. The one field read here is the network identity. -/
structure Network where
  NetID : String
deriving DecidableEq, Repr

/-- Modelled from the spec: the declaration of `models.Metrics` is outside
`mq/publishers.go`. A metrics snapshot; no field of it is read here. -/
structure Metrics where
  Rest : String
deriving DecidableEq, Repr

/-- Modelled from the spec: the MQTT client library is outside
`mq/publishers.go`. What the code observes of a publish token: the result of
`WaitTimeout d` for a duration `d` (in nanoseconds), and of `Error()`. -/
structure Token where
  WaitTimeout : Int → Bool
  Error : Option Err

/-- One observable step of a run, in program order. -/
inductive Event where
  | getHost (id : String)
  | getNetworkNodes (network : String)
  | getNetworks
  | getAllNodes
  | getPeerUpdate (node : Node)
  | getPeersForProxy (node : Node) (onlyPeers : Bool)
  | publish (node : Node) (topic : String) (data : Bytes)
  | mqclientPublish (topic : String) (qos : Nat) (retained : Bool) (data : Bytes)
  | go_PublishPeerUpdate (network : String) (publishToSelf : Bool)
  | call_PublishPeerUpdate (network : String) (publishToSelf : Bool)
  | call_NodeUpdate (node : Node)
  | initIPTables (force : Bool)
  | setHost
  | timerCheckpoint
  | log (level : Nat) (args : List String)
deriving DecidableEq, Repr

/-- The collaborators of `mq/publishers.go` and the constants it imports. -/
structure Env where
  /-- Result of `servercfg.IsMessageQueueBackend()`. -/
  IsMessageQueueBackend : Bool
  /-- Result of `servercfg.ManageIPTables()`. -/
  ManageIPTables : String
  /-- Function `logic.GetNetworkNodes`. -/
  GetNetworkNodes : String → Except Err (List Node)
  /-- Function `logic.GetHost`. -/
  GetHost : String → Except Err Host
  /-- Function `logic.GetPeerUpdate`. -/
  GetPeerUpdate : Node → Except Err PeerUpdate
  /-- Function `logic.GetPeersForProxy`. -/
  GetPeersForProxy : Node → Bool → Except Err ProxyManagerPayload
  /-- Function `logic.GetNetworks`: both returned values, since `sendPeers`
  uses the list whether or not the error is nil. -/
  GetNetworks : List Network × Option Err
  /-- Function `logic.GetAllNodes`. -/
  GetAllNodes : Except Err (List Node)
  /-- Function `logic.TimerCheckpoint`. -/
  TimerCheckpoint : Option Err
  /-- Function `json.Marshal` at `*models.PeerUpdate`. -/
  marshalPeerUpdate : PeerUpdate → Except Err Bytes
  /-- Function `json.Marshal` at `*models.Node`. -/
  marshalNode : Node → Except Err Bytes
  /-- Function `json.Marshal` at `*manager.ProxyManagerPayload`. -/
  marshalProxyPayload : ProxyManagerPayload → Except Err Bytes
  /-- Function `json.Marshal` at `models.Metrics`. -/
  marshalMetrics : Metrics → Except Err Bytes
  /-- The package-level transport helper `publish(node, dest, msg)`. -/
  publish : Node → String → Bytes → Option Err
  /-- Method `mqclient.Publish(topic, qos, retained, payload)`. -/
  mqclientPublish : String → Nat → Bool → Bytes → Token
  /-- Constant `manager.AddNetwork`. -/
  AddNetwork : String
  /-- Constant `models.NODE_FORCE_UPDATE`. -/
  NODE_FORCE_UPDATE : String
  /-- Constant `MQ_TIMEOUT` (seconds). -/
  MQ_TIMEOUT : Int

/-! ## Computations with a trace -/

/-- A finished computation: the value returned and the events emitted. -/
structure Eff (α : Type) where
  val : α
  trace : List Event

instance : Monad Eff where
  pure a := ⟨a, []⟩
  bind x f := ⟨(f x.val).val, x.trace ++ (f x.val).trace⟩

/-- Record one event. -/
def emit (e : Event) : Eff Unit := ⟨(), [e]⟩

/-! ## The functions of `mq/publishers.go` -/

/-- Topic `fmt.Sprintf("peers/%s/%s", node.Network, node.ID)`. -/
def peersTopic (node : Node) : String := "peers/" ++ node.Network ++ "/" ++ node.ID

/-- Topic `fmt.Sprintf("update/%s/%s", node.Network, node.ID)`. -/
def updateTopic (node : Node) : String := "update/" ++ node.Network ++ "/" ++ node.ID

/-- Topic `fmt.Sprintf("proxy/%s/%s", node.Network, node.ID)`. -/
def proxyTopic (node : Node) : String := "proxy/" ++ node.Network ++ "/" ++ node.ID

/-- Go `PublishSinglePeerUpdate` (lines 51-76). -/
def PublishSinglePeerUpdate (env : Env) (node : Node) : Eff (Option Err) := do
  emit (.getHost node.ID)
  match env.GetHost node.ID with
  | .error _ => return none
  | .ok host =>
    emit (.getPeerUpdate node)
    match env.GetPeerUpdate node with
    | .error err => return some err
    | .ok peerUpdate =>
      let mut peerUpdate := peerUpdate
      if host.ProxyEnabled then
        emit (.getPeersForProxy node false)
        match env.GetPeersForProxy node false with
        | .error err => return some err
        | .ok proxyUpdate =>
          let proxyUpdate := { proxyUpdate with Action := env.AddNetwork }
          peerUpdate := { peerUpdate with ProxyUpdate := proxyUpdate }
      match env.marshalPeerUpdate peerUpdate with
      | .error err => return some err
      | .ok data =>
        emit (.publish node (peersTopic node) data)
        return env.publish node (peersTopic node) data

/-- Go `PublishPeerUpdate` (lines 18-34). -/
def PublishPeerUpdate (env : Env) (network : String) (publishToSelf : Bool) :
    Eff (Option Err) := do
  emit (.call_PublishPeerUpdate network publishToSelf)
  if !env.IsMessageQueueBackend then
    return none
  emit (.getNetworkNodes network)
  match env.GetNetworkNodes network with
  | .error err =>
    emit (.log 1 ["err getting Network Nodes", err])
    return some err
  | .ok networkNodes =>
    let mut err : Option Err := none
    for node in networkNodes do
      err ← PublishSinglePeerUpdate env node
      if let some e := err then
        emit (.log 1 ["failed to publish peer update to node", node.ID, "on network",
          node.Network, ":", e])
    return err

/-- Go `ProxyUpdate` (lines 144-164). -/
def ProxyUpdate (env : Env) (proxyPayload : ProxyManagerPayload) (node : Node) :
    Eff (Option Err) := do
  emit (.getHost node.ID)
  match env.GetHost node.ID with
  | .error _ => return none
  | .ok host =>
    if !env.IsMessageQueueBackend || !host.ProxyEnabled then
      return none
    emit (.log 3 ["publishing proxy update to " ++ node.ID])
    match env.marshalProxyPayload proxyPayload with
    | .error err =>
      emit (.log 2 ["error marshalling node update ", err])
      return some err
    | .ok data =>
      emit (.publish node (proxyTopic node) data)
      match env.publish node (proxyTopic node) data with
      | some err =>
        emit (.log 2 ["error publishing proxy update to peer ", node.ID, err])
        return some err
      | none => return none

/-- Go `PublishProxyPeerUpdate` (lines 36-48). -/
def PublishProxyPeerUpdate (env : Env) (node : Node) : Eff (Option Err) := do
  emit (.getPeersForProxy node false)
  match env.GetPeersForProxy node false with
  | .error err => return some err
  | .ok proxyUpdate =>
    let proxyUpdate := { proxyUpdate with Action := env.AddNetwork }
    match ← ProxyUpdate env proxyUpdate node with
    | some err =>
      emit (.log 1 ["failed to send proxy update: ", err])
      return some err
    | none => return none

/-- Go `PublishExtPeerUpdate` (lines 79-107). The payload is serialized at line
91, before the proxy payload is stored into `peerUpdate` at line 98; the
goroutine started at line 105 is recorded as `go_PublishPeerUpdate` and not
run. -/
def PublishExtPeerUpdate (env : Env) (node : Node) : Eff (Option Err) := do
  emit (.getHost node.ID)
  match env.GetHost node.ID with
  | .error _ => return none
  | .ok host =>
    if !env.IsMessageQueueBackend then
      return none
    emit (.getPeerUpdate node)
    match env.GetPeerUpdate node with
    | .error err => return some err
    | .ok peerUpdate =>
      let mut peerUpdate := peerUpdate
      match env.marshalPeerUpdate peerUpdate with
      | .error err => return some err
      | .ok data =>
        if host.ProxyEnabled then
          emit (.getPeersForProxy node false)
          match env.GetPeersForProxy node false with
          | .ok proxyUpdate => peerUpdate := { peerUpdate with ProxyUpdate := proxyUpdate }
          | .error _ => pure ()
        emit (.publish node (peersTopic node) data)
        match env.publish node (peersTopic node) data with
        | some err => return some err
        | none =>
          emit (.go_PublishPeerUpdate node.Network false)
          return none

/-- Go `NodeUpdate` (lines 110-141). Lines 120-122, which would empty
`node.NetworkSettings.AccessKeys`, are commented out in the source, so the node
is serialized as received. -/
def NodeUpdate (env : Env) (node : Node) : Eff (Option Err) := do
  emit (.call_NodeUpdate node)
  emit (.getHost node.ID)
  match env.GetHost node.ID with
  | .error _ => return none
  | .ok host =>
    if !env.IsMessageQueueBackend then
      return none
    emit (.log 3 ["publishing node update to " ++ node.ID])
    match env.marshalNode node with
    | .error err =>
      emit (.log 2 ["error marshalling node update ", err])
      return some err
    | .ok data =>
      emit (.publish node (updateTopic node) data)
      match env.publish node (updateTopic node) data with
      | some err =>
        emit (.log 2 ["error publishing node update to peer ", node.ID, err])
        return some err
      | none =>
        if host.ProxyEnabled then
          if let some err ← PublishProxyPeerUpdate env node then
            emit (.log 1 ["failed to publish proxy update to node", node.ID, "on network",
              node.Network, ":", err])
        return none

/-- Go `peer_force_send++` on a 64-bit `int`: two's complement wrap-around. -/
def wrapInt (x : Int) : Int :=
  (x + 9223372036854775808) % 18446744073709551616 - 9223372036854775808

/-- Go `sendPeers` (lines 167-204). The package-level counter `peer_force_send`
(declared outside `mq/publishers.go`, taken to be a Go `int`) is passed in and
its new value is the result. -/
def sendPeers (env : Env) (peer_force_send : Int) : Eff Int := do
  let mut peer_force_send := peer_force_send
  emit .getNetworks
  let (networks, err) := env.GetNetworks
  if let some e := err then
    emit (.log 1 ["error retrieving networks for keepalive", e])
  let mut force := false
  peer_force_send := wrapInt (peer_force_send + 1)
  if peer_force_send == 5 then
    if env.ManageIPTables != "off" then
      emit (.initIPTables false)
    emit .setHost
    force := true
    peer_force_send := 0
    emit .timerCheckpoint
    if let some e := env.TimerCheckpoint then
      emit (.log 3 ["error occurred on timer,", e])
  for network in networks do
    if force then
      emit (.log 2 ["sending scheduled peer update (5 min)"])
      if let some e ← PublishPeerUpdate env network.NetID false then
        emit (.log 1 ["error publishing udp port updates for network", network.NetID])
        emit (.log 1 [e])
  return peer_force_send

/-- Go `ServerStartNotify` (lines 207-219). -/
def ServerStartNotify (env : Env) : Eff (Option Err) := do
  emit .getAllNodes
  match env.GetAllNodes with
  | .error err => return some err
  | .ok nodes =>
    for node in nodes do
      let node := { node with Action := env.NODE_FORCE_UPDATE }
      if let some _ ← NodeUpdate env node then
        emit (.log 1 ["error when notifying node", node.ID, "of a server startup"])
    return none

/-- Go `pushMetricsToExporter` (lines 264-280); `time.Second` is 1000000000
nanoseconds. -/
def pushMetricsToExporter (env : Env) (metrics : Metrics) : Eff (Option Err) := do
  emit (.log 2 ["----> Pushing metrics to exporter"])
  match env.marshalMetrics metrics with
  | .error err => return some ("failed to marshal metrics: " ++ err)
  | .ok data =>
    emit (.mqclientPublish "metrics_exporter" 2 true data)
    let token := env.mqclientPublish "metrics_exporter" 2 true data
    if !token.WaitTimeout (env.MQ_TIMEOUT * 1000000000) || token.Error != none then
      if token.Error == none then
        return some "connection timeout"
      else
        return token.Error
    return none

/-! ## Observations on traces -/

/-- The transport publish of an event, if it is one: node, topic, payload. -/
def Event.asPublish : Event → Option (Node × String × Bytes)
  | .publish node topic data => some (node, topic, data)
  | _ => none

/-- The calls of the transport helper `publish` in a trace, in order. -/
def publishes (t : List Event) : List (Node × String × Bytes) :=
  t.filterMap Event.asPublish

/-- The arguments of an entry into `PublishPeerUpdate`, if the event is one. -/
def Event.asPeerUpdateCall : Event → Option (String × Bool)
  | .call_PublishPeerUpdate network publishToSelf => some (network, publishToSelf)
  | _ => none

/-- The synchronous calls of `PublishPeerUpdate` in a trace, in order. -/
def peerUpdateCalls (t : List Event) : List (String × Bool) :=
  t.filterMap Event.asPeerUpdateCall

/-- The argument of an entry into `NodeUpdate`, if the event is one. -/
def Event.asNodeUpdateCall : Event → Option Node
  | .call_NodeUpdate node => some node
  | _ => none

/-- The calls of `NodeUpdate` in a trace, in order. -/
def nodeUpdateCalls (t : List Event) : List Node :=
  t.filterMap Event.asNodeUpdateCall

/-- Transport publishes: the helper `publish` and the raw `mqclient.Publish`. -/
def Event.isTransportPublish : Event → Bool
  | .publish _ _ _ => true
  | .mqclientPublish _ _ _ _ => true
  | _ => false

/-- Calls of the peer-update computation `logic.GetPeerUpdate`. -/
def Event.isPeerUpdateComputation : Event → Bool
  | .getPeerUpdate _ => true
  | _ => false

/-- Calls of the proxy-payload computation `logic.GetPeersForProxy`. -/
def Event.isProxyComputation : Event → Bool
  | .getPeersForProxy _ _ => true
  | _ => false

/-- A network-wide fan-out, called or started as a goroutine. -/
def Event.isFanOut : Event → Bool
  | .call_PublishPeerUpdate _ _ => true
  | .go_PublishPeerUpdate _ _ => true
  | _ => false

/-- A publisher run that reports success and did nothing beyond looking up the
host: no transport publish, no peer-update or proxy-payload computation, no
fan-out. -/
def SkipsSilently (r : Eff (Option Err)) : Prop :=
  r.val = none ∧
    ∀ ev ∈ r.trace, ev.isTransportPublish = false ∧ ev.isPeerUpdateComputation = false ∧
      ev.isProxyComputation = false ∧ ev.isFanOut = false

/-! ## Notions used by the statements -/

/-- An `Except` result that is an error. -/
def failed {α : Type} : Except Err α → Bool
  | .error _ => true
  | .ok _ => false

/-- Whether the host of a node resolves and is proxy-enabled. -/
def hostProxyEnabled (env : Env) (node : Node) : Bool :=
  match env.GetHost node.ID with
  | .ok host => host.ProxyEnabled
  | .error _ => false

/-- A node fails assembly: its peer-update computation fails, or its host is
proxy-enabled and its proxy-payload computation fails. -/
def failsAssembly (env : Env) (node : Node) : Bool :=
  failed (env.GetPeerUpdate node) ||
    (hostProxyEnabled env node && failed (env.GetPeersForProxy node false))

/-- The peer update assembled for a node whose host is `host`: the computed peer
update, carrying the computed proxy payload tagged add-network when the host is
proxy-enabled; `none` when a computation fails. -/
def assembledPeerUpdate (env : Env) (node : Node) (host : Host) : Option PeerUpdate :=
  match env.GetPeerUpdate node with
  | .error _ => none
  | .ok pu =>
    if host.ProxyEnabled then
      match env.GetPeersForProxy node false with
      | .error _ => none
      | .ok px => some { pu with ProxyUpdate := { px with Action := env.AddNetwork } }
    else some pu

/-- A node fails serialization: its peer update is assembled and `json.Marshal`
returns an error on it. -/
def failsSerialization (env : Env) (node : Node) : Bool :=
  match env.GetHost node.ID with
  | .error _ => false
  | .ok host =>
    match assembledPeerUpdate env node host with
    | none => false
    | some pu => failed (env.marshalPeerUpdate pu)

/-- The value of `peer_force_send` after `n` invocations of `sendPeers`, starting
from zero; `envs k` is the environment of the `k`-th invocation. -/
def counterAfter (envs : Nat → Env) : Nat → Int
  | 0 => 0
  | n + 1 => (sendPeers (envs (n + 1)) (counterAfter envs n)).val

/-- The zero value of `manager.ProxyManagerPayload`: an empty proxy-update
field. A proxy-update field is populated when it differs from it. -/
def emptyProxyPayload : ProxyManagerPayload := { Action := "", Rest := "" }

/-- The duration `MQ_TIMEOUT*time.Second`, in nanoseconds. -/
def mqTimeout (env : Env) : Int := env.MQ_TIMEOUT * 1000000000

/-! ## Sample data -/

/-- A node holding an access key. -/
def nodeA : Node :=
  { ID := "a", Network := "net", Action := "", AccessKeys := ["key-1"], Rest := "" }

/-- A second node of the same network. -/
def nodeB : Node :=
  { ID := "b", Network := "net", Action := "", AccessKeys := [], Rest := "" }

/-- A peer update with an empty proxy-update field. -/
def samplePeerUpdate : PeerUpdate :=
  { ProxyUpdate := { Action := "", Rest := "" }, Rest := "peers-of-node" }

/-- A non-empty proxy payload. -/
def sampleProxyPayload : ProxyManagerPayload :=
  { Action := "", Rest := "proxy-peers" }

/-- A sample serialization of proxy payloads. -/
def renderProxyPayload (p : ProxyManagerPayload) : Bytes :=
  "[" ++ p.Action ++ "|" ++ p.Rest ++ "]"

/-- A sample serialization of peer updates. -/
def renderPeerUpdate (pu : PeerUpdate) : Bytes :=
  renderProxyPayload pu.ProxyUpdate ++ pu.Rest

/-- A sample serialization of nodes. -/
def renderNode (n : Node) : Bytes :=
  n.ID ++ "|" ++ n.Network ++ "|" ++ n.Action ++ "|" ++ String.join n.AccessKeys ++ "|" ++ n.Rest

/-- An environment in which every collaborator succeeds and no host is
proxy-enabled. -/
def sampleEnv : Env where
  IsMessageQueueBackend := true
  ManageIPTables := "off"
  GetNetworkNodes := fun _ => .ok [nodeA, nodeB]
  GetHost := fun _ => .ok { ProxyEnabled := false }
  GetPeerUpdate := fun _ => .ok samplePeerUpdate
  GetPeersForProxy := fun _ _ => .ok sampleProxyPayload
  GetNetworks := ([{ NetID := "net" }], none)
  GetAllNodes := .ok [nodeA, nodeB]
  TimerCheckpoint := none
  marshalPeerUpdate := fun pu => .ok (renderPeerUpdate pu)
  marshalNode := fun n => .ok (renderNode n)
  marshalProxyPayload := fun p => .ok (renderProxyPayload p)
  marshalMetrics := fun m => .ok m.Rest
  publish := fun _ _ _ => none
  mqclientPublish := fun _ _ _ _ => { WaitTimeout := fun _ => true, Error := none }
  AddNetwork := "ADD_NETWORK"
  NODE_FORCE_UPDATE := "force"
  MQ_TIMEOUT := 30

/-- As `sampleEnv`, but the peer-update computation fails for node `a`. -/
def envFirstFails : Env :=
  { sampleEnv with
    GetPeerUpdate := fun n => if n.ID = "a" then .error "no peers for a" else .ok samplePeerUpdate }

/-- As `sampleEnv`, but no host resolves. -/
def envNoHost : Env :=
  { sampleEnv with GetHost := fun _ => .error "host not found" }

/-- As `sampleEnv`, but every host is proxy-enabled. -/
def envProxy : Env :=
  { sampleEnv with GetHost := fun _ => .ok { ProxyEnabled := true } }

/-- As `envProxy`, but the proxy-payload computation fails. -/
def envProxyFails : Env :=
  { envProxy with GetPeersForProxy := fun _ _ => .error "no proxy peers" }

/-- As `sampleEnv`, but peer updates do not serialize. -/
def envSerializeFails : Env :=
  { sampleEnv with
    GetNetworkNodes := fun _ => .ok [nodeA]
    marshalPeerUpdate := fun _ => .error "json: unsupported value" }

/-- As `sampleEnv`, but the transport rejects every publish. -/
def envTransportDown : Env :=
  { sampleEnv with publish := fun _ _ _ => some "transport down" }

/-- As `sampleEnv`, but the publish token is not acknowledged in time and then
reports a broker error. -/
def envLateBrokerError : Env :=
  { sampleEnv with
    mqclientPublish := fun _ _ _ _ =>
      { WaitTimeout := fun _ => false, Error := some "connection lost" } }

/-- As `sampleEnv`, but the publish token is not acknowledged in time and
reports no error. -/
def envNoAck : Env :=
  { sampleEnv with
    mqclientPublish := fun _ _ _ _ => { WaitTimeout := fun _ => false, Error := none } }

/-- A metrics snapshot. -/
def sampleMetrics : Metrics := { Rest := "metrics" }

/-! ## Lemmas on computations and traces -/

@[simp] theorem Eff.val_pure {α : Type} (a : α) : (pure a : Eff α).val = a := rfl

@[simp] theorem Eff.trace_pure {α : Type} (a : α) : (pure a : Eff α).trace = [] := rfl

@[simp] theorem Eff.val_bind {α β : Type} (x : Eff α) (f : α → Eff β) :
    (x >>= f).val = (f x.val).val := rfl

@[simp] theorem Eff.trace_bind {α β : Type} (x : Eff α) (f : α → Eff β) :
    (x >>= f).trace = x.trace ++ (f x.val).trace := rfl

@[simp] theorem emit_val (e : Event) : (emit e).val = () := rfl

@[simp] theorem emit_trace (e : Event) : (emit e).trace = [e] := rfl

@[simp] theorem publishes_nil : publishes [] = [] := rfl

@[simp] theorem publishes_append (s t : List Event) :
    publishes (s ++ t) = publishes s ++ publishes t := by
  simp [publishes]

@[simp] theorem publishes_cons (e : Event) (t : List Event) :
    publishes (e :: t) = (e.asPublish).toList ++ publishes t := by
  cases h : e.asPublish <;> simp [publishes, List.filterMap_cons, h]

@[simp] theorem peerUpdateCalls_nil : peerUpdateCalls [] = [] := rfl

@[simp] theorem peerUpdateCalls_append (s t : List Event) :
    peerUpdateCalls (s ++ t) = peerUpdateCalls s ++ peerUpdateCalls t := by
  simp [peerUpdateCalls]

@[simp] theorem peerUpdateCalls_cons (e : Event) (t : List Event) :
    peerUpdateCalls (e :: t) = (e.asPeerUpdateCall).toList ++ peerUpdateCalls t := by
  cases h : e.asPeerUpdateCall <;> simp [peerUpdateCalls, List.filterMap_cons, h]

@[simp] theorem nodeUpdateCalls_nil : nodeUpdateCalls [] = [] := rfl

@[simp] theorem nodeUpdateCalls_append (s t : List Event) :
    nodeUpdateCalls (s ++ t) = nodeUpdateCalls s ++ nodeUpdateCalls t := by
  simp [nodeUpdateCalls]

@[simp] theorem nodeUpdateCalls_cons (e : Event) (t : List Event) :
    nodeUpdateCalls (e :: t) = (e.asNodeUpdateCall).toList ++ nodeUpdateCalls t := by
  cases h : e.asNodeUpdateCall <;> simp [nodeUpdateCalls, List.filterMap_cons, h]

/-! ## Lookup misses (C4) -/

/-- C4: for a node whose host lookup fails, `PublishSinglePeerUpdate`,
`PublishExtPeerUpdate` and `NodeUpdate` each return nil and emit no transport
publish, no peer-update or proxy-payload computation and no fan-out. -/
theorem lookup_miss_skips_silently (env : Env) (node : Node) (e : Err)
    (h : env.GetHost node.ID = .error e) :
    SkipsSilently (PublishSinglePeerUpdate env node) ∧
      SkipsSilently (PublishExtPeerUpdate env node) ∧
      SkipsSilently (NodeUpdate env node) := by
  refine ⟨?_, ?_, ?_⟩
  · simp [SkipsSilently, PublishSinglePeerUpdate, h, Event.isTransportPublish,
      Event.isPeerUpdateComputation, Event.isProxyComputation, Event.isFanOut]
  · simp [SkipsSilently, PublishExtPeerUpdate, h, Event.isTransportPublish,
      Event.isPeerUpdateComputation, Event.isProxyComputation, Event.isFanOut]
  · simp [SkipsSilently, NodeUpdate, h, Event.isTransportPublish,
      Event.isPeerUpdateComputation, Event.isProxyComputation, Event.isFanOut]

/-- Witness of C4 on a node without a host. -/
theorem lookup_miss_skips_silently_witness :
    envNoHost.GetHost nodeA.ID = .error "host not found" ∧
      SkipsSilently (PublishSinglePeerUpdate envNoHost nodeA) ∧
      SkipsSilently (PublishExtPeerUpdate envNoHost nodeA) ∧
      SkipsSilently (NodeUpdate envNoHost nodeA) :=
  ⟨rfl, lookup_miss_skips_silently envNoHost nodeA "host not found" rfl⟩

/-! ## The payload of a single-node peer update (C7) -/

/-- Which peer update `PublishSinglePeerUpdate` serializes and publishes, for a
node with a resolvable host whose peer-update computation returns `pu`: when
the host is proxy-enabled and the proxy-payload computation returns `px`, `pu`
with its proxy-update field set to `px` tagged add-network; when the host is
not proxy-enabled, `pu` exactly as computed, and the proxy-payload computation
is never invoked. Nothing is published if serialization fails, or if the host
is proxy-enabled and the proxy-payload computation fails (its error is
returned). -/
theorem single_peer_update_struct (env : Env) (node : Node) (host : Host) (pu : PeerUpdate)
    (hh : env.GetHost node.ID = .ok host) (hp : env.GetPeerUpdate node = .ok pu) :
    (host.ProxyEnabled = true → ∀ px, env.GetPeersForProxy node false = .ok px →
      publishes (PublishSinglePeerUpdate env node).trace =
        match env.marshalPeerUpdate
          { pu with ProxyUpdate := { px with Action := env.AddNetwork } } with
        | .ok data => [(node, peersTopic node, data)]
        | .error _ => []) ∧
    (host.ProxyEnabled = false →
      (publishes (PublishSinglePeerUpdate env node).trace =
        match env.marshalPeerUpdate pu with
        | .ok data => [(node, peersTopic node, data)]
        | .error _ => []) ∧
      ∀ ev ∈ (PublishSinglePeerUpdate env node).trace, ev.isProxyComputation = false) ∧
    (host.ProxyEnabled = true → ∀ e, env.GetPeersForProxy node false = .error e →
      publishes (PublishSinglePeerUpdate env node).trace = [] ∧
        (PublishSinglePeerUpdate env node).val = some e) := by
  refine ⟨?_, ?_, ?_⟩
  · intro hpe px hpx
    unfold PublishSinglePeerUpdate
    cases hm : env.marshalPeerUpdate
        { pu with ProxyUpdate := { px with Action := env.AddNetwork } } <;>
      simp [hh, hp, hpe, hpx, hm, Event.asPublish]
  · intro hpe
    unfold PublishSinglePeerUpdate
    cases hm : env.marshalPeerUpdate pu <;>
      simp [hh, hp, hpe, hm, Event.asPublish, Event.isProxyComputation]
  · intro hpe e hx
    simp [PublishSinglePeerUpdate, hh, hp, hpe, hx, Event.asPublish]

/-- C7: for a node with a resolvable host whose peer-update computation
succeeds and returns an empty proxy-update field (add-network being a non-empty
action tag): every payload `PublishSinglePeerUpdate` publishes is, on
`peers/network/id`, the serialization of a peer update whose proxy-update field
is populated if and only if the host is proxy-enabled. When proxy-enabled the
field is the computed proxy payload with its action set to add-network; when
proxy-disabled the peer update is exactly the one the peer-update computation
returned, with its empty field, and the proxy-payload computation is never
invoked. The publish happens whenever the computations and the serialization
succeed. -/
theorem single_peer_update_payload (env : Env) (node : Node) (host : Host) (pu : PeerUpdate)
    (hh : env.GetHost node.ID = .ok host) (hp : env.GetPeerUpdate node = .ok pu)
    (hempty : pu.ProxyUpdate = emptyProxyPayload) (hadd : env.AddNetwork ≠ "") :
    (∀ p ∈ publishes (PublishSinglePeerUpdate env node).trace,
      ∃ sent, env.marshalPeerUpdate sent = .ok p.2.2 ∧ p.1 = node ∧ p.2.1 = peersTopic node ∧
        (sent.ProxyUpdate ≠ emptyProxyPayload ↔ host.ProxyEnabled = true) ∧
        (host.ProxyEnabled = true → ∃ px, env.GetPeersForProxy node false = .ok px ∧
          sent = { pu with ProxyUpdate := { px with Action := env.AddNetwork } }) ∧
        (host.ProxyEnabled = false → sent = pu ∧ sent.ProxyUpdate = emptyProxyPayload)) ∧
    (host.ProxyEnabled = true → ∀ px, env.GetPeersForProxy node false = .ok px →
      publishes (PublishSinglePeerUpdate env node).trace =
        match env.marshalPeerUpdate
          { pu with ProxyUpdate := { px with Action := env.AddNetwork } } with
        | .ok data => [(node, peersTopic node, data)]
        | .error _ => []) ∧
    (host.ProxyEnabled = false →
      (publishes (PublishSinglePeerUpdate env node).trace =
        match env.marshalPeerUpdate pu with
        | .ok data => [(node, peersTopic node, data)]
        | .error _ => []) ∧
      ∀ ev ∈ (PublishSinglePeerUpdate env node).trace, ev.isProxyComputation = false) ∧
    (host.ProxyEnabled = true → ∀ e, env.GetPeersForProxy node false = .error e →
      publishes (PublishSinglePeerUpdate env node).trace = [] ∧
        (PublishSinglePeerUpdate env node).val = some e) := by
  obtain ⟨h1, h2, h3⟩ := single_peer_update_struct env node host pu hh hp
  refine ⟨?_, h1, h2, h3⟩
  intro p hmem
  cases hpe : host.ProxyEnabled with
  | false =>
    rw [(h2 hpe).1] at hmem
    cases hm : env.marshalPeerUpdate pu with
    | error e => simp [hm] at hmem
    | ok data =>
      simp only [hm, List.mem_singleton] at hmem
      subst hmem
      exact ⟨pu, hm, rfl, rfl, by simp [hempty], by simp, fun _ => ⟨rfl, hempty⟩⟩
  | true =>
    cases hx : env.GetPeersForProxy node false with
    | error e =>
      rw [(h3 hpe e hx).1] at hmem
      simp at hmem
    | ok px =>
      rw [h1 hpe px hx] at hmem
      cases hm : env.marshalPeerUpdate
          { pu with ProxyUpdate := { px with Action := env.AddNetwork } } with
      | error e => simp [hm] at hmem
      | ok data =>
        simp only [hm, List.mem_singleton] at hmem
        subst hmem
        refine ⟨{ pu with ProxyUpdate := { px with Action := env.AddNetwork } }, hm, rfl, rfl,
          ?_, fun _ => ⟨px, rfl, rfl⟩, by simp⟩
        simp only [iff_true, ne_eq, emptyProxyPayload]
        intro hc
        exact hadd (congrArg ProxyManagerPayload.Action hc)

/-- Witness of C7 on a proxy-enabled host whose peer-update computation returns
an empty proxy-update field: the published payload carries the proxy payload
tagged add-network. -/
theorem single_peer_update_payload_witness :
    samplePeerUpdate.ProxyUpdate = emptyProxyPayload ∧ envProxy.AddNetwork ≠ "" ∧
    publishes (PublishSinglePeerUpdate envProxy nodeA).trace =
      [(nodeA, "peers/net/a", "[ADD_NETWORK|proxy-peers]peers-of-node")] :=
  ⟨rfl, by decide,
    (single_peer_update_payload envProxy nodeA { ProxyEnabled := true } samplePeerUpdate
      rfl rfl rfl (by decide)).2.1 rfl sampleProxyPayload rfl⟩

/-! ## The payload of an external-peer update (C5) -/

/-- What `PublishExtPeerUpdate` publishes, for every environment: when host
lookup and peer-update computation succeed and the backend is enabled, the
payload is the serialization of the peer update as computed, whatever the
proxy-payload computation returns. -/
theorem ext_peer_update_publishes (env : Env) (node : Node) (host : Host) (pu : PeerUpdate)
    (data : Bytes) (hh : env.GetHost node.ID = .ok host)
    (hmq : env.IsMessageQueueBackend = true) (hp : env.GetPeerUpdate node = .ok pu)
    (hm : env.marshalPeerUpdate pu = .ok data) :
    publishes (PublishExtPeerUpdate env node).trace = [(node, peersTopic node, data)] := by
  unfold PublishExtPeerUpdate
  cases hpe : host.ProxyEnabled <;> cases hx : env.GetPeersForProxy node false <;>
    cases hpub : env.publish node (peersTopic node) data <;>
    simp [hh, hmq, hp, hm, hpe, hx, hpub, Event.asPublish]

/-- C5, evaluated on a proxy-enabled host whose proxy-payload computation
succeeds: the payload `PublishExtPeerUpdate` publishes is the serialization of
the peer update with its empty proxy-update field, not of the peer update
carrying the computed proxy payload. -/
theorem ext_peer_update_omits_proxy_payload :
    envProxy.GetHost nodeA.ID = .ok { ProxyEnabled := true } ∧
      envProxy.GetPeerUpdate nodeA = .ok samplePeerUpdate ∧
      envProxy.GetPeersForProxy nodeA false = .ok sampleProxyPayload ∧
      publishes (PublishExtPeerUpdate envProxy nodeA).trace =
        [(nodeA, "peers/net/a", "[|]peers-of-node")] ∧
      envProxy.marshalPeerUpdate samplePeerUpdate = .ok "[|]peers-of-node" ∧
      envProxy.marshalPeerUpdate { samplePeerUpdate with ProxyUpdate := sampleProxyPayload } =
        .ok "[|proxy-peers]peers-of-node" := by
  refine ⟨rfl, rfl, rfl, ?_, rfl, rfl⟩
  exact ext_peer_update_publishes envProxy nodeA { ProxyEnabled := true } samplePeerUpdate
    "[|]peers-of-node" rfl rfl rfl rfl

/-! ## The record of a node update (C6) -/

/-- What `NodeUpdate` publishes first, for every environment: when the host
resolves and the backend is enabled, the serialization of the node exactly as
received, on `update/network/id`. -/
theorem node_update_publishes_head (env : Env) (node : Node) (host : Host) (data : Bytes)
    (hh : env.GetHost node.ID = .ok host) (hmq : env.IsMessageQueueBackend = true)
    (hm : env.marshalNode node = .ok data) :
    (publishes (NodeUpdate env node).trace).head? = some (node, updateTopic node, data) := by
  unfold NodeUpdate
  cases hpub : env.publish node (updateTopic node) data <;>
    simp [hh, hmq, hm, hpub, Event.asPublish]

/-- C6, evaluated on a node holding the access key `key-1`: the record
`NodeUpdate` publishes on `update/net/a` is the serialization of the node with
its access key, not of the node with the access keys emptied. -/
theorem node_update_keeps_access_keys :
    nodeA.AccessKeys = ["key-1"] ∧
      publishes (NodeUpdate sampleEnv nodeA).trace = [(nodeA, "update/net/a", "a|net||key-1|")] ∧
      sampleEnv.marshalNode nodeA = .ok "a|net||key-1|" ∧
      sampleEnv.marshalNode { nodeA with AccessKeys := [] } = .ok "a|net|||" := by
  refine ⟨rfl, ?_, rfl, rfl⟩
  rfl

/-! ## The error returned by the network-wide fan-out (C1) -/

/-- C1, evaluated on a network of two nodes where the first fails and the
second succeeds: `PublishPeerUpdate` returns nil, though the per-node call for
node `a` returned an error. -/
theorem fan_out_drops_earlier_error :
    envFirstFails.GetNetworkNodes "net" = .ok [nodeA, nodeB] ∧
      (PublishSinglePeerUpdate envFirstFails nodeA).val = some "no peers for a" ∧
      (PublishSinglePeerUpdate envFirstFails nodeB).val = none ∧
      (PublishPeerUpdate envFirstFails "net" false).val = none := by
  refine ⟨rfl, rfl, rfl, rfl⟩

/-! ## The publishes of the network-wide fan-out (C2) -/

/-- The publishes of one `PublishSinglePeerUpdate` on a node whose host
resolves: one, on `peers/network/id`, unless assembly or serialization fails. -/
theorem single_publishes_topics (env : Env) (node : Node) (host : Host)
    (hh : env.GetHost node.ID = .ok host) :
    (publishes (PublishSinglePeerUpdate env node).trace).map (fun p => (p.1, p.2.1)) =
      if failsAssembly env node || failsSerialization env node then []
      else [(node, peersTopic node)] := by
  unfold PublishSinglePeerUpdate failsAssembly failsSerialization assembledPeerUpdate
    hostProxyEnabled
  cases hp : env.GetPeerUpdate node with
  | error e => simp [hh, hp, failed, Event.asPublish]
  | ok pu =>
    cases hpe : host.ProxyEnabled with
    | false =>
      cases hm : env.marshalPeerUpdate pu <;>
        simp [hh, hp, hpe, hm, failed, Event.asPublish]
    | true =>
      cases hx : env.GetPeersForProxy node false with
      | error e => simp [hh, hp, hpe, hx, failed, Event.asPublish]
      | ok px =>
        cases hm : env.marshalPeerUpdate
            { pu with ProxyUpdate := { px with Action := env.AddNetwork } } <;>
          simp [hh, hp, hpe, hx, hm, failed, Event.asPublish]

/-- The publishes of `PublishPeerUpdate` when every node has a host: one per
node that fails neither assembly nor serialization, in list order. -/
theorem fan_out_publishes (env : Env) (network : String) (publishToSelf : Bool)
    (nodes : List Node) (hmq : env.IsMessageQueueBackend = true)
    (hn : env.GetNetworkNodes network = .ok nodes)
    (hhost : ∀ n ∈ nodes, ∃ host, env.GetHost n.ID = .ok host) :
    (publishes (PublishPeerUpdate env network publishToSelf).trace).map
        (fun p => (p.1, p.2.1)) =
      (nodes.filter (fun n => !(failsAssembly env n || failsSerialization env n))).map
        (fun n => (n, peersTopic n)) := by
  unfold PublishPeerUpdate
  simp [hmq, hn, Event.asPublish]
  clear hn
  generalize (none : Option Err) = init
  induction nodes generalizing init with
  | nil => simp
  | cons n rest ih =>
    obtain ⟨host, hh⟩ := hhost n (by simp)
    have hs := single_publishes_topics env n host hh
    have ih2 := fun init => ih (fun m hm => hhost m (by simp [hm])) init
    simp only [List.forIn_cons]
    cases hv : (PublishSinglePeerUpdate env n).val <;>
      simp only [Eff.trace_bind, Eff.val_bind, Eff.trace_pure, Eff.val_pure, emit_trace, emit_val,
        hv, publishes_append, publishes_cons, publishes_nil, List.map_append, hs, ih2,
        List.filter_cons, Event.asPublish, Option.toList, List.append_nil, List.nil_append,
        List.map_nil] <;>
      cases hf : (failsAssembly env n || failsSerialization env n) <;>
      simp_all <;>
      (rw [if_neg]; rintro ⟨h1, h2⟩; rcases hf with h | h <;> simp_all)

/-- The value `PublishPeerUpdate` returns: the result of the per-node call on
the last node of the list, nil for an empty list. -/
theorem fan_out_returns_last_result (env : Env) (network : String) (publishToSelf : Bool)
    (nodes : List Node) (hmq : env.IsMessageQueueBackend = true)
    (hn : env.GetNetworkNodes network = .ok nodes) :
    (PublishPeerUpdate env network publishToSelf).val =
      match nodes.getLast? with
      | none => none
      | some last => (PublishSinglePeerUpdate env last).val := by
  unfold PublishPeerUpdate
  simp [hmq, hn]
  clear hn
  generalize (none : Option Err) = init
  induction nodes generalizing init with
  | nil => simp
  | cons n rest ih =>
    simp only [List.forIn_cons]
    cases hv : (PublishSinglePeerUpdate env n).val <;>
      simp only [Eff.val_bind, Eff.val_pure, hv, ih] <;>
      cases rest <;> simp [hv] <;>
      (rename_i m tl; cases hl : (m :: tl).getLast? <;> simp_all)

/-- C2, amended: with the message-queue backend enabled and every node of the
network having a resolvable host, `PublishPeerUpdate` invokes the transport
publish once for each node that fails neither assembly (peer-update
computation, or proxy-payload computation on a proxy-enabled host) nor
serialization of the assembled peer update, on topic `peers/network/id`, in
list order: `N - K` publishes when `K` of the `N` nodes fail. -/
theorem fan_out_publishes_for_each_non_failing_node (env : Env) (network : String)
    (publishToSelf : Bool) (nodes : List Node) (hmq : env.IsMessageQueueBackend = true)
    (hn : env.GetNetworkNodes network = .ok nodes)
    (hhost : ∀ n ∈ nodes, ∃ host, env.GetHost n.ID = .ok host) :
    (publishes (PublishPeerUpdate env network publishToSelf).trace).map
        (fun p => (p.1, p.2.1)) =
      (nodes.filter (fun n => !(failsAssembly env n || failsSerialization env n))).map
        (fun n => (n, peersTopic n)) ∧
    (publishes (PublishPeerUpdate env network publishToSelf).trace).length =
      nodes.length -
        (nodes.filter (fun n => failsAssembly env n || failsSerialization env n)).length := by
  have h := fan_out_publishes env network publishToSelf nodes hmq hn hhost
  refine ⟨h, ?_⟩
  have hl := congrArg List.length h
  simp only [List.length_map] at hl
  rw [hl]
  have := List.length_eq_length_filter_add (l := nodes)
    (fun n => failsAssembly env n || failsSerialization env n)
  omega

/-- Witness of C2 (amended): of two nodes, the one failing assembly gets no
publish and the other gets one. -/
theorem fan_out_publishes_for_each_non_failing_node_witness :
    (publishes (PublishPeerUpdate envFirstFails "net" false).trace).map
        (fun p => (p.1, p.2.1)) = [(nodeB, "peers/net/b")] ∧
    (publishes (PublishPeerUpdate envFirstFails "net" false).trace).length = 2 - 1 :=
  fan_out_publishes_for_each_non_failing_node envFirstFails "net" false [nodeA, nodeB] rfl rfl
    (fun _ _ => ⟨{ ProxyEnabled := false }, rfl⟩)

/-- C2 as stated fails: on a network of one node whose host resolves, whose
peer-update computation succeeds and whose host is not proxy-enabled (`N = 1`,
`K = 0`), but whose peer update does not serialize, nothing is published. -/
theorem fan_out_count_counterexample :
    envSerializeFails.IsMessageQueueBackend = true ∧
    envSerializeFails.GetNetworkNodes "net" = .ok [nodeA] ∧
    envSerializeFails.GetHost nodeA.ID = .ok { ProxyEnabled := false } ∧
    ([nodeA].filter (fun n => failsAssembly envSerializeFails n)).length = 0 ∧
    publishes (PublishPeerUpdate envSerializeFails "net" false).trace = [] ∧
    (publishes (PublishPeerUpdate envSerializeFails "net" false).trace).length ≠
      [nodeA].length - ([nodeA].filter (fun n => failsAssembly envSerializeFails n)).length := by
  refine ⟨rfl, rfl, rfl, rfl, rfl, ?_⟩
  decide

/-! ## The reconciliation scheduler (C3) -/

/-- A per-node peer update never enters `PublishPeerUpdate`. -/
theorem single_peerUpdateCalls (env : Env) (node : Node) :
    peerUpdateCalls (PublishSinglePeerUpdate env node).trace = [] := by
  unfold PublishSinglePeerUpdate
  cases hh : env.GetHost node.ID with
  | error e => simp [Event.asPeerUpdateCall]
  | ok host =>
    cases hp : env.GetPeerUpdate node with
    | error e => simp [Event.asPeerUpdateCall]
    | ok pu =>
      cases hpe : host.ProxyEnabled with
      | false =>
        cases hm : env.marshalPeerUpdate pu <;> simp [hm, hpe, Event.asPeerUpdateCall]
      | true =>
        cases hx : env.GetPeersForProxy node false with
        | error e => simp [hpe, hx, Event.asPeerUpdateCall]
        | ok px =>
          cases hm : env.marshalPeerUpdate
              { pu with ProxyUpdate := { px with Action := env.AddNetwork } } <;>
            simp [hm, hpe, hx, Event.asPeerUpdateCall]

/-- One call of `PublishPeerUpdate` is one entry into it. -/
theorem fan_out_peerUpdateCalls (env : Env) (network : String) (publishToSelf : Bool) :
    peerUpdateCalls (PublishPeerUpdate env network publishToSelf).trace =
      [(network, publishToSelf)] := by
  unfold PublishPeerUpdate
  cases hmq : env.IsMessageQueueBackend with
  | false => simp [Event.asPeerUpdateCall]
  | true =>
    cases hn : env.GetNetworkNodes network with
    | error e => simp [Event.asPeerUpdateCall]
    | ok nodes =>
      simp [Event.asPeerUpdateCall]
      clear hn
      generalize (none : Option Err) = init
      induction nodes generalizing init with
      | nil => simp
      | cons n rest ih =>
        simp only [List.forIn_cons]
        cases hv : (PublishSinglePeerUpdate env n).val <;>
          simp [hv, ih, single_peerUpdateCalls, Event.asPeerUpdateCall]

/-- A loop whose body always continues: the events of a given kind it emits
are those of its iterations, in order. -/
theorem forIn_trace_filterMap {α β γ : Type} (p : Event → Option γ) (g : α → List γ)
    (l : List α) (init : β) (f : α → β → Eff (ForInStep β))
    (hf : ∀ a b, (f a b).trace.filterMap p = g a ∧ ∃ b2, (f a b).val = ForInStep.yield b2) :
    (forIn l init f).trace.filterMap p = l.flatMap g := by
  induction l generalizing init with
  | nil => simp
  | cons a l ih =>
    obtain ⟨h1, b2, h2⟩ := hf a init
    simp [List.forIn_cons, h1, h2, ih]

/-- One invocation of `sendPeers` from counter value `c`: the new counter, and
the calls of `PublishPeerUpdate` it makes. -/
theorem sendPeers_step (env : Env) (c : Int) :
    (sendPeers env c).val = (if wrapInt (c + 1) = 5 then 0 else wrapInt (c + 1)) ∧
    peerUpdateCalls (sendPeers env c).trace =
      (if wrapInt (c + 1) = 5 then env.GetNetworks.1.map (fun nw => (nw.NetID, false))
       else []) := by
  have hforce : ∀ (f : Network → PUnit → Eff (ForInStep PUnit)),
      (∀ nw b, peerUpdateCalls (f nw b).trace = [(nw.NetID, false)] ∧
        ∃ b2, (f nw b).val = ForInStep.yield b2) →
      peerUpdateCalls (forIn env.GetNetworks.1 PUnit.unit f).trace =
        env.GetNetworks.1.map (fun nw => (nw.NetID, false)) := by
    intro f hf
    have := forIn_trace_filterMap Event.asPeerUpdateCall (fun (nw : Network) => [(nw.NetID, false)])
      env.GetNetworks.1 PUnit.unit f hf
    simp only [peerUpdateCalls, this]
    generalize env.GetNetworks.1 = l
    induction l with
    | nil => rfl
    | cons a l ih => simp [ih]
  have hidle : ∀ (f : Network → PUnit → Eff (ForInStep PUnit)),
      (∀ nw b, peerUpdateCalls (f nw b).trace = [] ∧
        ∃ b2, (f nw b).val = ForInStep.yield b2) →
      peerUpdateCalls (forIn env.GetNetworks.1 PUnit.unit f).trace = [] := by
    intro f hf
    have := forIn_trace_filterMap Event.asPeerUpdateCall (fun (_ : Network) => [])
      env.GetNetworks.1 PUnit.unit f hf
    simp only [peerUpdateCalls, this]
    generalize env.GetNetworks.1 = l
    induction l with
    | nil => rfl
    | cons a l ih => simp [ih]
  unfold sendPeers
  by_cases h5 : wrapInt (c + 1) = 5
  · cases he : env.GetNetworks.2 <;> cases ht : env.TimerCheckpoint <;>
      by_cases hi : env.ManageIPTables = "off" <;>
      simp [h5, he, ht, hi, Event.asPeerUpdateCall] <;>
      (apply hforce; intro nw b;
       cases hv : (PublishPeerUpdate env nw.NetID false).val <;>
         simp [hv, fan_out_peerUpdateCalls, Event.asPeerUpdateCall])
  · cases he : env.GetNetworks.2 <;>
      simp [h5, he, Event.asPeerUpdateCall] <;>
      (apply hidle; intro nw b; simp)

/-- The counter after `n` invocations, starting from zero, is `n mod 5`. -/
theorem counterAfter_eq (envs : Nat → Env) (n : Nat) :
    counterAfter envs n = ((n % 5 : Nat) : Int) := by
  induction n with
  | zero => rfl
  | succ n ih =>
    simp only [counterAfter, (sendPeers_step _ _).1, ih]
    unfold wrapInt
    split <;> omega

/-- C3: starting from a counter of zero, for every `n ≥ 1` the `n`-th invocation
of `sendPeers` calls `PublishPeerUpdate` (with `publishToSelf = false`) once for
every network returned by `GetNetworks`, in order, when `n` is a multiple of 5,
and makes no `PublishPeerUpdate` call otherwise; the counter it leaves is
`n mod 5`. -/
theorem forced_broadcast_every_fifth_invocation (envs : Nat → Env) (n : Nat) (hn : 1 ≤ n) :
    peerUpdateCalls (sendPeers (envs n) (counterAfter envs (n - 1))).trace =
      (if n % 5 = 0 then (envs n).GetNetworks.1.map (fun nw => (nw.NetID, false)) else []) ∧
    (sendPeers (envs n) (counterAfter envs (n - 1))).val = ((n % 5 : Nat) : Int) := by
  obtain ⟨hv, ht⟩ := sendPeers_step (envs n) (counterAfter envs (n - 1))
  rw [hv, ht, counterAfter_eq]
  have hw : wrapInt (((((n - 1) % 5 : Nat)) : Int) + 1) = (((n - 1) % 5 : Nat) : Int) + 1 := by
    unfold wrapInt
    omega
  rw [hw]
  have h5 : ((((n - 1) % 5 : Nat) : Int) + 1 = 5) ↔ n % 5 = 0 := by omega
  by_cases hz : n % 5 = 0
  · simp only [h5.mpr hz, hz, if_true, and_true, Nat.cast_zero]
  · have hne : ¬ ((((n - 1) % 5 : Nat) : Int) + 1 = 5) := fun h => hz (h5.mp h)
    simp only [hne, hz, if_false, true_and]
    omega

/-- Witness of C3 at the fifth invocation: one forced broadcast for the one
known network, and the counter is back to zero. -/
theorem forced_broadcast_every_fifth_invocation_witness :
    1 ≤ 5 ∧
    peerUpdateCalls (sendPeers sampleEnv (counterAfter (fun _ => sampleEnv) (5 - 1))).trace =
      [("net", false)] ∧
    (sendPeers sampleEnv (counterAfter (fun _ => sampleEnv) (5 - 1))).val = 0 :=
  ⟨by decide, forced_broadcast_every_fifth_invocation (fun _ => sampleEnv) 5 (by decide)⟩

/-! ## The startup notifier (C8) -/

/-- A proxy update never enters `NodeUpdate`. -/
theorem proxyUpdate_nodeUpdateCalls (env : Env) (p : ProxyManagerPayload) (node : Node) :
    nodeUpdateCalls (ProxyUpdate env p node).trace = [] := by
  unfold ProxyUpdate
  cases hh : env.GetHost node.ID with
  | error e => simp [Event.asNodeUpdateCall]
  | ok host =>
    by_cases hc : (!env.IsMessageQueueBackend || !host.ProxyEnabled) = true
    · simp [hc, Event.asNodeUpdateCall]
    · cases hm : env.marshalProxyPayload p with
      | error e => simp [hc, hm, Event.asNodeUpdateCall]
      | ok data =>
        cases hpub : env.publish node (proxyTopic node) data <;>
          simp [hc, hm, hpub, Event.asNodeUpdateCall]

/-- A proxy peer update never enters `NodeUpdate`. -/
theorem publishProxy_nodeUpdateCalls (env : Env) (node : Node) :
    nodeUpdateCalls (PublishProxyPeerUpdate env node).trace = [] := by
  unfold PublishProxyPeerUpdate
  cases hx : env.GetPeersForProxy node false with
  | error e => simp [Event.asNodeUpdateCall]
  | ok px =>
    cases hv : (ProxyUpdate env { px with Action := env.AddNetwork } node).val <;>
      simp [hv, proxyUpdate_nodeUpdateCalls, Event.asNodeUpdateCall]

/-- One call of `NodeUpdate` is one entry into it, on its argument. -/
theorem nodeUpdate_nodeUpdateCalls (env : Env) (node : Node) :
    nodeUpdateCalls (NodeUpdate env node).trace = [node] := by
  unfold NodeUpdate
  cases hh : env.GetHost node.ID with
  | error e => simp [Event.asNodeUpdateCall]
  | ok host =>
    cases hmq : env.IsMessageQueueBackend with
    | false => simp [Event.asNodeUpdateCall]
    | true =>
      cases hm : env.marshalNode node with
      | error e => simp [hm, Event.asNodeUpdateCall]
      | ok data =>
        cases hpub : env.publish node (updateTopic node) data with
        | some e => simp [hm, hpub, Event.asNodeUpdateCall]
        | none =>
          cases hpe : host.ProxyEnabled with
          | false => simp [hm, hpub, hpe, Event.asNodeUpdateCall]
          | true =>
            cases hv : (PublishProxyPeerUpdate env node).val <;>
              simp [hm, hpub, hpe, hv, publishProxy_nodeUpdateCalls, Event.asNodeUpdateCall]

/-- C8: for every node list the all-nodes enumeration returns,
`ServerStartNotify` calls `NodeUpdate` exactly once per node, in list order,
each time on that node with its action set to force-update and every other
field unchanged, whatever the individual `NodeUpdate` calls return; and it
returns nil. -/
theorem startup_notifies_every_node (env : Env) (nodes : List Node)
    (h : env.GetAllNodes = .ok nodes) :
    nodeUpdateCalls (ServerStartNotify env).trace =
        nodes.map (fun n => { n with Action := env.NODE_FORCE_UPDATE }) ∧
      (ServerStartNotify env).val = none := by
  have hloop : ∀ (f : Node → PUnit → Eff (ForInStep PUnit)),
      (∀ n b, nodeUpdateCalls (f n b).trace = [{ n with Action := env.NODE_FORCE_UPDATE }] ∧
        ∃ b2, (f n b).val = ForInStep.yield b2) →
      nodeUpdateCalls (forIn nodes PUnit.unit f).trace =
        nodes.map (fun n => { n with Action := env.NODE_FORCE_UPDATE }) := by
    intro f hf
    have := forIn_trace_filterMap Event.asNodeUpdateCall
      (fun (n : Node) => [({ n with Action := env.NODE_FORCE_UPDATE } : Node)])
      nodes PUnit.unit f hf
    simp only [nodeUpdateCalls, this]
    clear h hf this
    induction nodes with
    | nil => rfl
    | cons a l ih => simp [ih]
  unfold ServerStartNotify
  simp only [h, Eff.trace_bind, Eff.val_bind, Eff.val_pure, Eff.trace_pure, emit_trace,
    nodeUpdateCalls_append, nodeUpdateCalls_cons, nodeUpdateCalls_nil, Event.asNodeUpdateCall,
    Option.toList, List.nil_append, List.append_nil, and_true]
  apply hloop
  intro n b
  cases hv : (NodeUpdate env { n with Action := env.NODE_FORCE_UPDATE }).val <;>
    simp [hv, nodeUpdate_nodeUpdateCalls, Event.asNodeUpdateCall]

/-- Witness of C8 with a transport that rejects every publish: `NodeUpdate`
fails for each node, every node is still notified, and nil is returned. -/
theorem startup_notifies_every_node_witness :
    (NodeUpdate envTransportDown { nodeA with Action := "force" }).val = some "transport down" ∧
    (nodeUpdateCalls (ServerStartNotify envTransportDown).trace =
        [{ nodeA with Action := "force" }, { nodeB with Action := "force" }] ∧
      (ServerStartNotify envTransportDown).val = none) :=
  ⟨rfl, startup_notifies_every_node envTransportDown [nodeA, nodeB] rfl⟩

/-! ## The metrics push (C9) -/

/-- C9, amended: once the metrics snapshot serializes, `pushMetricsToExporter`
returns a connection-timeout error whenever the publish token is not
acknowledged within the timeout window and reports no error; the token's error
verbatim whenever the token reports one, acknowledged in time or not; and nil
exactly when the token is acknowledged in time with no error. -/
theorem metrics_push_result (env : Env) (metrics : Metrics) (data : Bytes)
    (hm : env.marshalMetrics metrics = .ok data) :
    ((env.mqclientPublish "metrics_exporter" 2 true data).WaitTimeout (mqTimeout env) = false →
      (env.mqclientPublish "metrics_exporter" 2 true data).Error = none →
      (pushMetricsToExporter env metrics).val = some "connection timeout") ∧
    (∀ e, (env.mqclientPublish "metrics_exporter" 2 true data).Error = some e →
      (pushMetricsToExporter env metrics).val = some e) ∧
    ((pushMetricsToExporter env metrics).val = none ↔
      (env.mqclientPublish "metrics_exporter" 2 true data).WaitTimeout (mqTimeout env) = true ∧
        (env.mqclientPublish "metrics_exporter" 2 true data).Error = none) := by
  unfold pushMetricsToExporter mqTimeout
  cases hw : (env.mqclientPublish "metrics_exporter" 2 true data).WaitTimeout
      (env.MQ_TIMEOUT * 1000000000) <;>
    cases he : (env.mqclientPublish "metrics_exporter" 2 true data).Error <;>
    simp [hm, hw, he]

/-- Witness of C9 (amended) on a token that is never acknowledged and reports
no error: the result is the connection-timeout error. -/
theorem metrics_push_result_witness :
    (pushMetricsToExporter envNoAck sampleMetrics).val = some "connection timeout" :=
  (metrics_push_result envNoAck sampleMetrics "metrics" rfl).1 rfl rfl

/-- C9 as stated fails: a token that is not acknowledged within the timeout
window and reports a broker error makes `pushMetricsToExporter` return the
broker error, not a connection-timeout error. -/
theorem metrics_push_timeout_counterexample :
    envLateBrokerError.marshalMetrics sampleMetrics = .ok "metrics" ∧
    (envLateBrokerError.mqclientPublish "metrics_exporter" 2 true "metrics").WaitTimeout
        (mqTimeout envLateBrokerError) = false ∧
    (pushMetricsToExporter envLateBrokerError sampleMetrics).val = some "connection lost" ∧
    (pushMetricsToExporter envLateBrokerError sampleMetrics).val ≠ some "connection timeout" := by
  refine ⟨rfl, rfl, rfl, ?_⟩
  decide

/-! ## Node update and its proxy sub-publish (C10) -/

/-- C10: for a node with a resolvable proxy-enabled host and the message-queue
backend enabled, the result of `NodeUpdate` is decided by serializing the node
and publishing it on `update/network/id`: a serialization error is returned;
if the publish succeeds the result is nil, whatever the proxy sub-publish does;
if the publish fails its error is returned, and the trace holds no
proxy-payload computation and no publish other than that one. -/
theorem node_update_result (env : Env) (node : Node) (host : Host)
    (hh : env.GetHost node.ID = .ok host) (hpe : host.ProxyEnabled = true)
    (hmq : env.IsMessageQueueBackend = true) :
    (∀ e, env.marshalNode node = .error e → (NodeUpdate env node).val = some e) ∧
    (∀ data, env.marshalNode node = .ok data →
      env.publish node (updateTopic node) data = none → (NodeUpdate env node).val = none) ∧
    (∀ data e, env.marshalNode node = .ok data →
      env.publish node (updateTopic node) data = some e →
      (NodeUpdate env node).val = some e ∧
        publishes (NodeUpdate env node).trace = [(node, updateTopic node, data)] ∧
        ∀ ev ∈ (NodeUpdate env node).trace, ev.isProxyComputation = false) := by
  refine ⟨?_, ?_, ?_⟩
  · intro e hm
    simp [NodeUpdate, hh, hmq, hm]
  · intro data hm hpub
    unfold NodeUpdate
    cases hv : (PublishProxyPeerUpdate env node).val <;> simp [hh, hmq, hm, hpub, hpe, hv]
  · intro data e hm hpub
    simp [NodeUpdate, hh, hmq, hm, hpub, Event.asPublish, Event.isProxyComputation]

/-- Witness of C10 on a proxy-enabled host whose proxy-payload computation
fails: the proxy sub-publish fails and `NodeUpdate` returns nil. -/
theorem node_update_result_witness :
    (PublishProxyPeerUpdate envProxyFails nodeA).val = some "no proxy peers" ∧
      (NodeUpdate envProxyFails nodeA).val = none :=
  ⟨rfl, (node_update_result envProxyFails nodeA { ProxyEnabled := true } rfl rfl rfl).2.1
    "a|net||key-1|" rfl rfl⟩

end Netmaker.MQ
